import Mathlib

/-!
Verification of the procedural geometry core of the Nazaré waves simulator.

The definitions below are a shallow embedding, over the reals, of the
per-vertex ocean-surface evaluation (WaveMesh useFrame body), the animation
clock, the noise primitives (seededRandom / noise3D / fbm), and the terrain
displacement functions (createCliffGeometry / createRockGeometry).
-/

noncomputable section

namespace Nazare

/-- A 3D vertex position, as one (x,y,z) entry of a position buffer. -/
structure Vec3 where
  x : ℝ
  y : ℝ
  z : ℝ

/-- One (r,g,b) entry of a vertex color buffer. -/
structure RGB where
  r : ℝ
  g : ℝ
  b : ℝ

/-- The configuration snapshot (interface WaveConfig in waveConfig.ts). -/
structure WaveConfig where
  waveHeight : ℝ
  wavePeriod : ℝ
  waveDirection : ℝ
  waveLength : ℝ
  waveSpeed : ℝ
  secondaryWaveHeight : ℝ
  secondaryWavePeriod : ℝ
  secondaryWaveDirection : ℝ
  windSpeed : ℝ
  windDirection : ℝ
  windChopIntensity : ℝ
  canyonAmplification : ℝ
  canyonFocusWidth : ℝ
  canyonDepthEffect : ℝ
  foamThreshold : ℝ
  foamIntensity : ℝ
  waterClarity : ℝ
  wireframe : Bool
  animateWaves : Bool
  timeScale : ℝ

/-- defaultWaveConfig from waveConfig.ts. -/
def defaultWaveConfig : WaveConfig where
  waveHeight := 8
  wavePeriod := 14
  waveDirection := 0
  waveLength := 200
  waveSpeed := 1
  secondaryWaveHeight := 2
  secondaryWavePeriod := 8
  secondaryWaveDirection := 30
  windSpeed := 15
  windDirection := 45
  windChopIntensity := 0.3
  canyonAmplification := 2
  canyonFocusWidth := 0.4
  canyonDepthEffect := 0.7
  foamThreshold := 0.6
  foamIntensity := 0.5
  waterClarity := 0.7
  wireframe := true
  animateWaves := true
  timeScale := 1

/-! ## NoiseField (Shore.tsx helpers) -/

/-- seededRandom: fractional part of sin(seed)·10000. -/
def seededRandom (seed : ℝ) : ℝ :=
  Real.sin seed * 10000 - ⌊Real.sin seed * 10000⌋

/-- noise3D: weighted sum of three sinusoidal products. -/
def noise3D (x y z : ℝ) : ℝ :=
  Real.sin (x * 0.5 + y * 0.3) * Real.cos (z * 0.4 + x * 0.2) +
  Real.sin (y * 0.7 - z * 0.5) * Real.cos (x * 0.6) * 0.5 +
  Real.sin (x * 1.3 + z * 1.1) * Real.cos (y * 0.9) * 0.25

/-- The fbm accumulation loop: n remaining octaves, current octave index i,
current amplitude, frequency, accumulated value and accumulated maxValue;
returns the final (value, maxValue) pair. -/
def fbmGo (x y : ℝ) : ℕ → ℕ → ℝ → ℝ → ℝ → ℝ → ℝ × ℝ
  | 0, _, _, _, value, maxValue => (value, maxValue)
  | n + 1, i, amplitude, frequency, value, maxValue =>
      fbmGo x y n (i + 1) (amplitude * 0.5) (frequency * 2.1)
        (value + amplitude * noise3D (x * frequency) (y * frequency) (i * 100))
        (maxValue + amplitude)

/-- fbm: fractal Brownian motion, the loop of octaves normalized by the
total amplitude. -/
def fbm (x y : ℝ) (octaves : ℕ) : ℝ :=
  (fbmGo x y octaves 0 1 1 0 0).1 / (fbmGo x y octaves 0 1 1 0 0).2

/-! ## OceanSurfaceField (WaveMesh useFrame body) -/

/-- The gravity constant used in the wave speed computation. -/
def gravity : ℝ := 9.8

/-- primaryWaveSpeed: (gravity * wavePeriod) / (2π) * waveSpeed * 0.3. -/
def primaryWaveSpeed (cfg : WaveConfig) : ℝ :=
  gravity * cfg.wavePeriod / (2 * Real.pi) * cfg.waveSpeed * 0.3

/-- secondaryWaveSpeed: same form with secondaryWavePeriod. -/
def secondaryWaveSpeed (cfg : WaveConfig) : ℝ :=
  gravity * cfg.secondaryWavePeriod / (2 * Real.pi) * cfg.waveSpeed * 0.3

/-- windChopMultiplier: windChopIntensity * (1 + windSpeed / 20). -/
def windChopMultiplier (cfg : WaveConfig) : ℝ :=
  cfg.windChopIntensity * (1 + cfg.windSpeed / 20)

/-- Primary wave direction in radians. -/
def primaryDir (cfg : WaveConfig) : ℝ := cfg.waveDirection * Real.pi / 180

/-- Primary wavenumber k = 2π / waveLength. -/
def primaryK (cfg : WaveConfig) : ℝ := 2 * Real.pi / cfg.waveLength

/-- Secondary wave direction in radians. -/
def secondaryDir (cfg : WaveConfig) : ℝ := cfg.secondaryWaveDirection * Real.pi / 180

/-- Secondary wavelength is fixed at 0.6 × the primary wavelength. -/
def secondaryWaveLength (cfg : WaveConfig) : ℝ := cfg.waveLength * 0.6

/-- Secondary wavenumber. -/
def secondaryK (cfg : WaveConfig) : ℝ := 2 * Real.pi / secondaryWaveLength cfg

/-- Canyon amplification factor at horizontal coordinate x. -/
def canyonFactor (cfg : WaveConfig) (x : ℝ) : ℝ :=
  1 + (cfg.canyonAmplification - 1) *
    Real.exp (-(|x| / 150 * (|x| / 150)) /
      (cfg.canyonFocusWidth * cfg.canyonFocusWidth))

/-- Depth/shoaling factor at depth coordinate z. -/
def depthFactor (cfg : WaveConfig) (z : ℝ) : ℝ :=
  1 + cfg.canyonDepthEffect * ((z + 150) / 300)

/-- Phase of the primary wave at vertex (x,z) and time t. -/
def primaryPhase (cfg : WaveConfig) (t x z : ℝ) : ℝ :=
  primaryK cfg * (Real.sin (primaryDir cfg) * x + Real.cos (primaryDir cfg) * z -
    primaryWaveSpeed cfg * t)

/-- Amplitude of the primary wave at vertex (x,z). -/
def primaryAmplitude (cfg : WaveConfig) (x z : ℝ) : ℝ :=
  cfg.waveHeight * canyonFactor cfg x * depthFactor cfg z

/-- Height contribution of the primary wave. -/
def primaryWave (cfg : WaveConfig) (t x z : ℝ) : ℝ :=
  primaryAmplitude cfg x z * Real.sin (primaryPhase cfg t x z)

/-- Analytic slope of the primary wave. -/
def primarySlope (cfg : WaveConfig) (t x z : ℝ) : ℝ :=
  primaryAmplitude cfg x z * primaryK cfg * Real.cos (primaryPhase cfg t x z)

/-- Phase of the secondary wave. -/
def secondaryPhase (cfg : WaveConfig) (t x z : ℝ) : ℝ :=
  secondaryK cfg * (Real.sin (secondaryDir cfg) * x + Real.cos (secondaryDir cfg) * z -
    secondaryWaveSpeed cfg * t)

/-- Amplitude of the secondary wave (canyon factor, no depth factor, × 0.7). -/
def secondaryAmplitude (cfg : WaveConfig) (x : ℝ) : ℝ :=
  cfg.secondaryWaveHeight * canyonFactor cfg x * 0.7

/-- Height contribution of the secondary wave. -/
def secondaryWave (cfg : WaveConfig) (t x z : ℝ) : ℝ :=
  secondaryAmplitude cfg x * Real.sin (secondaryPhase cfg t x z)

/-- Analytic slope of the secondary wave. -/
def secondarySlope (cfg : WaveConfig) (t x z : ℝ) : ℝ :=
  secondaryAmplitude cfg x * secondaryK cfg * Real.cos (secondaryPhase cfg t x z)

/-- Wind chop height contribution; the guarded branch computes three
phase-shifted sinusoidal products, otherwise the contribution stays 0. -/
def windChop (cfg : WaveConfig) (t x z : ℝ) : ℝ :=
  if windChopMultiplier cfg > 0 then
    (Real.sin (x * 0.08 + t * 2 * 1.1) * Real.cos (z * 0.06 + t * 2 * 0.9) * 0.5 +
     Real.sin (x * 0.15 - t * 2 * 0.7) * Real.cos (z * 0.12 + t * 2 * 1.3) * 0.3 +
     Real.sin ((x + z) * 0.1 + t * 2 * 0.8) * 0.2) * windChopMultiplier cfg * 3
  else 0

/-- Approximate wind chop slope (same guard as the height contribution). -/
def chopSlope (cfg : WaveConfig) (t x z : ℝ) : ℝ :=
  if windChopMultiplier cfg > 0 then
    (Real.cos (x * 0.08 + t * 2 * 1.1) * 0.08 * Real.cos (z * 0.06 + t * 2 * 0.9) * 0.5 +
     Real.cos (x * 0.15 - t * 2 * 0.7) * 0.15 * Real.cos (z * 0.12 + t * 2 * 1.3) * 0.3) *
      windChopMultiplier cfg * 3
  else 0

/-- Total written height: primary + secondary + chop. -/
def totalHeight (cfg : WaveConfig) (t x z : ℝ) : ℝ :=
  primaryWave cfg t x z + secondaryWave cfg t x z + windChop cfg t x z

/-- Grid spacing of the 300-unit, 200-segment ocean plane. -/
def gridSpacing : ℝ := 300 / 200

/-- Steepness: total absolute slope divided by the grid spacing. -/
def steepness (cfg : WaveConfig) (t x z : ℝ) : ℝ :=
  |primarySlope cfg t x z + secondarySlope cfg t x z + chopSlope cfg t x z| / gridSpacing

/-- Foam amount as a function of the steepness value and the total height:
threshold test against foamThreshold·2, then
min(1, (steepness−threshold)·2)·foamIntensity plus the crest bonus,
clamped by the outer min. -/
def foamAmountOf (cfg : WaveConfig) (s h : ℝ) : ℝ :=
  if s > cfg.foamThreshold * 2 then
    min 1 (min 1 ((s - cfg.foamThreshold * 2) * 2) * cfg.foamIntensity +
      max 0 (h / (cfg.waveHeight * 2)) * cfg.foamIntensity * 0.5)
  else 0

/-- Foam amount at a vertex. -/
def foamAmount (cfg : WaveConfig) (t x z : ℝ) : ℝ :=
  foamAmountOf cfg (steepness cfg t x z) (totalHeight cfg t x z)

/-- Murkiness: 1 − clarityFactor. -/
def murkiness (cfg : WaveConfig) : ℝ := 1 - cfg.waterClarity

/-- The turbid (clarity-tinted) base color: red reduced by 30%·murkiness,
green raised by 10%·murkiness, blue reduced by 20%·murkiness. -/
def turbidColor (cfg : WaveConfig) (base : RGB) : RGB where
  r := base.r * (1 - murkiness cfg * 0.3)
  g := base.g * (1 + murkiness cfg * 0.1)
  b := base.b * (1 - murkiness cfg * 0.2)

/-- Linear blend of a color toward white by the foam fraction. -/
def blendFoam (c : RGB) (foam : ℝ) : RGB where
  r := c.r + (1 - c.r) * foam
  g := c.g + (1 - c.g) * foam
  b := c.b + (1 - c.b) * foam

/-- The color written into the vertex color buffer. -/
def vertexColor (cfg : WaveConfig) (base : RGB) (t x z : ℝ) : RGB :=
  blendFoam (turbidColor cfg base) (foamAmount cfg t x z)

/-- One full evaluation pass: given the base-grid positions orig and the
current working position buffer, produce the updated position buffer
(x,z kept from the working buffer, y overwritten with the total height
computed from the base-grid x,z) and the fully overwritten color buffer. -/
def wavePass (cfg : WaveConfig) (base : RGB) (t : ℝ) (orig pos : List Vec3) :
    List Vec3 × List RGB :=
  (List.zipWith (fun o p => Vec3.mk p.x (totalHeight cfg t o.x o.z) p.z) orig pos,
   List.zipWith (fun o _ => vertexColor cfg base t o.x o.z) orig pos)

/-! ## TerrainField (Shore.tsx) -/

/-- Per-vertex displacement of createRockGeometry: read the original
(x,y,z), flatten the lower hemisphere by flattenBottom, apply the fbm radial
displacement, the angular factor, the per-axis stretch constants and the
overall 0.85 vertical flattening. -/
def rockDisplace (seed flattenBottom stretchX stretchZ : ℝ) (v : Vec3) : Vec3 :=
  Vec3.mk
    (v.x * (1 + fbm (v.x * 0.08 + seed) (v.y * 0.1 + v.z * 0.08 + seed) 3 * 0.3) *
      (1 + Real.sin (v.x * 2 + seed) * Real.cos (v.z * 2 + seed) * 0.1) * stretchX)
    (v.y * (if v.y < 0 then flattenBottom else 1) *
      (1 + fbm (v.x * 0.08 + seed) (v.y * 0.1 + v.z * 0.08 + seed) 3 * 0.3) * 0.85)
    (v.z * (1 + fbm (v.x * 0.08 + seed) (v.y * 0.1 + v.z * 0.08 + seed) 3 * 0.3) *
      (1 + Real.sin (v.x * 2 + seed) * Real.cos (v.z * 2 + seed) * 0.1) * stretchZ)

/-- The (seed, flattenBottom, stretchX, stretchZ) argument tuples of every
createRockGeometry call in Shore.tsx (fort main rock, fort upper rock, and
the twelve fort connector rocks). -/
structure RockCall where
  seed : ℝ
  flattenBottom : ℝ
  stretchX : ℝ
  stretchZ : ℝ

/-- Every createRockGeometry call site in the source with its arguments. -/
def rockCalls : List RockCall :=
  [⟨400, 0.3, 1.4, 1.2⟩, ⟨410, 0.5, 1.5, 1.0⟩,
   ⟨420, 0.35, 1.3, 1.4⟩, ⟨425, 0.4, 1.2, 1.3⟩, ⟨430, 0.35, 1.3, 1.2⟩,
   ⟨435, 0.3, 1.4, 1.3⟩, ⟨440, 0.35, 1.2, 1.4⟩, ⟨445, 0.45, 1.1, 1.2⟩,
   ⟨450, 0.4, 1.2, 1.1⟩, ⟨455, 0.5, 1.0, 1.3⟩, ⟨460, 0.45, 1.1, 1.2⟩,
   ⟨465, 0.3, 1.5, 1.2⟩, ⟨470, 0.3, 1.4, 1.3⟩, ⟨475, 0.25, 1.6, 1.1⟩]

/-- Rock generation over a whole base buffer (the subdivided icosahedron
positions are the input; detail and baseSize only shape that input). -/
def createRockPositions (seed flattenBottom stretchX stretchZ : ℝ)
    (buf : List Vec3) : List Vec3 :=
  buf.map (rockDisplace seed flattenBottom stretchX stretchZ)

/-- Per-vertex z-displacement of createCliffGeometry: large, medium and
small fbm terms, erosion weighted toward the base band, overhang weighted
toward the top band (subtracted), and the periodic crack term. -/
def cliffDisplacement (height seed displaceAmount x y : ℝ) : ℝ :=
  fbm (x * 0.03 + seed) (y * 0.04) 3 * displaceAmount +
  fbm (x * 0.1 + seed) (y * 0.12) 2 * (displaceAmount * 0.4) +
  fbm (x * 0.3 + seed) (y * 0.35) 2 * (displaceAmount * 0.15) +
  max 0 (1 - (y + height / 2) / (height * 0.4)) *
    fbm (x * 0.15 + seed) (y * 0.1) 2 * (displaceAmount * 0.5) -
  max 0 ((y - height * 0.3) / (height * 0.2)) *
    fbm (x * 0.08 + seed) (y * 0.05) 2 * (displaceAmount * 0.3) +
  Real.sin (x * 0.4 + seed) * Real.sin (y * 0.2) * (displaceAmount * 0.15)

/-- Cliff generation: each base-plane vertex keeps its (x,y) and gets the
computed z-displacement written into its z component. -/
def createCliffPositions (height seed displaceAmount : ℝ)
    (buf : List Vec3) : List Vec3 :=
  buf.map (fun v => Vec3.mk v.x v.y (cliffDisplacement height seed displaceAmount v.x v.y))

/-! ## AnimationClock -/

/-- One tick of the time accumulator. -/
def tick (cfg : WaveConfig) (delta t : ℝ) : ℝ :=
  if cfg.animateWaves then t + delta * cfg.timeScale else t

/-- A sequence of ticks, each with its own configuration snapshot and delta. -/
def runTicks (steps : List (WaveConfig × ℝ)) (t : ℝ) : ℝ :=
  steps.foldl (fun acc s => tick s.1 s.2 acc) t

/-! ## Theorems -/

/-- C10: seededRandom is the pure function returning sin(seed)·10000 minus
its floor; its value always lies in [0,1); and seededRandom 0 = 0. -/
theorem seededRandom_spec :
    (∀ s : ℝ, seededRandom s = Real.sin s * 10000 - ⌊Real.sin s * 10000⌋) ∧
    (∀ s : ℝ, 0 ≤ seededRandom s ∧ seededRandom s < 1) ∧
    seededRandom 0 = 0 := by
  refine ⟨fun s => rfl, fun s => ?_, ?_⟩
  · have h := Int.fract_nonneg (Real.sin s * 10000)
    have h2 := Int.fract_lt_one (Real.sin s * 10000)
    rw [Int.fract] at h h2
    exact ⟨h, h2⟩
  · simp [seededRandom]

/-- Spec-side phase speed, from the spec words: deep-water dispersion
c = g·period/(2π), scaled by the configurable speed multiplier and the fixed
damping constant 0.3, with g = 9.8. Stated for comparison with the
source-side primaryWaveSpeed / secondaryWaveSpeed. -/
def specPhaseSpeed (period mult : ℝ) : ℝ :=
  9.8 * period / (2 * Real.pi) * mult * 0.3

/-- C2: the phase speeds used in the phase computation follow the
gravity/period dispersion form of the spec, for both wave components, and
the primary/secondary phases indeed use exactly those speeds. -/
theorem phase_speed_gravity_form (cfg : WaveConfig) (t x z : ℝ) :
    primaryWaveSpeed cfg = specPhaseSpeed cfg.wavePeriod cfg.waveSpeed ∧
    secondaryWaveSpeed cfg = specPhaseSpeed cfg.secondaryWavePeriod cfg.waveSpeed ∧
    primaryPhase cfg t x z = primaryK cfg *
      (Real.sin (primaryDir cfg) * x + Real.cos (primaryDir cfg) * z -
        specPhaseSpeed cfg.wavePeriod cfg.waveSpeed * t) ∧
    secondaryPhase cfg t x z = secondaryK cfg *
      (Real.sin (secondaryDir cfg) * x + Real.cos (secondaryDir cfg) * z -
        specPhaseSpeed cfg.secondaryWavePeriod cfg.waveSpeed * t) := by
  refine ⟨rfl, rfl, rfl, rfl⟩

/-- C6: with windChopIntensity = 0 the wind chop contribution is identically
0 for every vertex and time, and the total height reduces to the primary
plus the secondary wave height. -/
theorem wind_chop_suppressed (cfg : WaveConfig)
    (hchop : cfg.windChopIntensity = 0) (t x z : ℝ) :
    windChop cfg t x z = 0 ∧
    totalHeight cfg t x z = primaryWave cfg t x z + secondaryWave cfg t x z := by
  have hmul : windChopMultiplier cfg = 0 := by
    simp [windChopMultiplier, hchop]
  have hzero : windChop cfg t x z = 0 := by
    rw [windChop, hmul]
    simp
  exact ⟨hzero, by rw [totalHeight, hzero, add_zero]⟩

/-- Concrete configuration with wind chop disabled, for the C6 witness. -/
def stillAirConfig : WaveConfig := { defaultWaveConfig with windChopIntensity := 0 }

/-- Witness for C6 at a concrete configuration and vertex. -/
theorem wind_chop_suppressed_witness :
    windChop stillAirConfig 1 2 3 = 0 ∧
    totalHeight stillAirConfig 1 2 3 =
      primaryWave stillAirConfig 1 2 3 + secondaryWave stillAirConfig 1 2 3 :=
  wind_chop_suppressed stillAirConfig rfl 1 2 3

/-- A paused tick leaves the accumulator unchanged; helper ordering fact. -/
theorem tick_le (cfg : WaveConfig) (delta t : ℝ)
    (hd : 0 ≤ delta) (hts : 0 ≤ cfg.timeScale) : t ≤ tick cfg delta t := by
  rw [tick]
  split
  · nlinarith [mul_nonneg hd hts]
  · exact le_refl t

/-- C7: a tick with animation disabled leaves the accumulator exactly
unchanged; a tick with animation enabled adds exactly deltaTime·timeScale;
and under nonnegative deltas and time scales the accumulator is monotone
non-decreasing across any sequence of ticks. -/
theorem time_accumulator_ticks :
    (∀ (cfg : WaveConfig) (delta t : ℝ), cfg.animateWaves = false →
      tick cfg delta t = t) ∧
    (∀ (cfg : WaveConfig) (delta t : ℝ), cfg.animateWaves = true →
      tick cfg delta t = t + delta * cfg.timeScale) ∧
    (∀ (steps : List (WaveConfig × ℝ)) (t : ℝ),
      (∀ p ∈ steps, 0 ≤ p.2 ∧ 0 ≤ p.1.timeScale) → t ≤ runTicks steps t) := by
  refine ⟨fun cfg delta t h => by simp [tick, h],
          fun cfg delta t h => by simp [tick, h], ?_⟩
  intro steps
  induction steps with
  | nil => intro t _; exact le_refl t
  | cons s ss ih =>
      intro t hall
      have hs := hall s (List.mem_cons_self s ss)
      have h1 : t ≤ tick s.1 s.2 t := tick_le s.1 s.2 t hs.1 hs.2
      have h2 : tick s.1 s.2 t ≤ runTicks ss (tick s.1 s.2 t) :=
        ih (tick s.1 s.2 t) (fun p hp => hall p (List.mem_cons_of_mem s hp))
      calc t ≤ tick s.1 s.2 t := h1
        _ ≤ runTicks ss (tick s.1 s.2 t) := h2
        _ = runTicks (s :: ss) t := rfl

/-- Concrete configuration with animation disabled, for the C7 witness. -/
def pausedConfig : WaveConfig := { defaultWaveConfig with animateWaves := false }

/-- Witness for C7: a concrete run of one enabled tick, with nonnegative
delta and time scale, does not decrease the accumulator. -/
theorem time_accumulator_ticks_witness :
    tick pausedConfig 5 3 = 3 ∧
    (0 : ℝ) ≤ runTicks [(defaultWaveConfig, 1)] 0 :=
  ⟨time_accumulator_ticks.1 pausedConfig 5 3 rfl,
   time_accumulator_ticks.2.2 [(defaultWaveConfig, 1)] 0
     (by
        intro p hp
        simp only [List.mem_singleton] at hp
        subst hp
        refine ⟨by norm_num, by norm_num [defaultWaveConfig]⟩)⟩

/-- The noise3D primitive is bounded by 1.75 in absolute value. -/
theorem noise3D_abs_le (x y z : ℝ) : |noise3D x y z| ≤ 1.75 := by
  rw [noise3D]
  have b1 : |Real.sin (x * 0.5 + y * 0.3) * Real.cos (z * 0.4 + x * 0.2)| ≤ 1 := by
    rw [abs_mul]
    exact mul_le_one₀ (Real.abs_sin_le_one _) (abs_nonneg _) (Real.abs_cos_le_one _)
  have b2 : |Real.sin (y * 0.7 - z * 0.5) * Real.cos (x * 0.6) * 0.5| ≤ 0.5 := by
    rw [abs_mul, abs_mul]
    have := mul_le_one₀ (Real.abs_sin_le_one (y * 0.7 - z * 0.5)) (abs_nonneg _)
      (Real.abs_cos_le_one (x * 0.6))
    rw [abs_of_pos (by norm_num : (0:ℝ) < 0.5)]
    nlinarith [abs_nonneg (Real.sin (y * 0.7 - z * 0.5) * Real.cos (x * 0.6))]
  have b3 : |Real.sin (x * 1.3 + z * 1.1) * Real.cos (y * 0.9) * 0.25| ≤ 0.25 := by
    rw [abs_mul, abs_mul]
    have := mul_le_one₀ (Real.abs_sin_le_one (x * 1.3 + z * 1.1)) (abs_nonneg _)
      (Real.abs_cos_le_one (y * 0.9))
    rw [abs_of_pos (by norm_num : (0:ℝ) < 0.25)]
    nlinarith [abs_nonneg (Real.sin (x * 1.3 + z * 1.1) * Real.cos (y * 0.9))]
  calc |Real.sin (x * 0.5 + y * 0.3) * Real.cos (z * 0.4 + x * 0.2) +
        Real.sin (y * 0.7 - z * 0.5) * Real.cos (x * 0.6) * 0.5 +
        Real.sin (x * 1.3 + z * 1.1) * Real.cos (y * 0.9) * 0.25|
      ≤ |Real.sin (x * 0.5 + y * 0.3) * Real.cos (z * 0.4 + x * 0.2) +
          Real.sin (y * 0.7 - z * 0.5) * Real.cos (x * 0.6) * 0.5| +
        |Real.sin (x * 1.3 + z * 1.1) * Real.cos (y * 0.9) * 0.25| := abs_add _ _
    _ ≤ |Real.sin (x * 0.5 + y * 0.3) * Real.cos (z * 0.4 + x * 0.2)| +
        |Real.sin (y * 0.7 - z * 0.5) * Real.cos (x * 0.6) * 0.5| +
        |Real.sin (x * 1.3 + z * 1.1) * Real.cos (y * 0.9) * 0.25| := by
          have := abs_add (Real.sin (x * 0.5 + y * 0.3) * Real.cos (z * 0.4 + x * 0.2))
            (Real.sin (y * 0.7 - z * 0.5) * Real.cos (x * 0.6) * 0.5)
          linarith
    _ ≤ 1.75 := by linarith

/-- Invariant of the fbm loop: the accumulated value stays within 1.75 times
the accumulated maxValue, and the accumulated maxValue stays nonnegative. -/
theorem fbmGo_bound (x y : ℝ) :
    ∀ (n i : ℕ) (a f v m : ℝ), 0 ≤ a → 0 ≤ m → |v| ≤ 1.75 * m →
      |(fbmGo x y n i a f v m).1| ≤ 1.75 * (fbmGo x y n i a f v m).2 ∧
      0 ≤ (fbmGo x y n i a f v m).2 := by
  intro n
  induction n with
  | zero => intro i a f v m _ hm hv; exact ⟨hv, hm⟩
  | succ n ih =>
      intro i a f v m ha hm hv
      rw [fbmGo]
      refine ih (i + 1) (a * 0.5) (f * 2.1)
        (v + a * noise3D (x * f) (y * f) (i * 100)) (m + a) (by linarith) (by linarith) ?_
      have hn := noise3D_abs_le (x * f) (y * f) (i * 100)
      calc |v + a * noise3D (x * f) (y * f) (i * 100)|
          ≤ |v| + |a * noise3D (x * f) (y * f) (i * 100)| := abs_add _ _
        _ = |v| + a * |noise3D (x * f) (y * f) (i * 100)| := by
              rw [abs_mul, abs_of_nonneg ha]
        _ ≤ 1.75 * m + a * 1.75 := by
              have := mul_le_mul_of_nonneg_left hn ha
              linarith
        _ = 1.75 * (m + a) := by ring

/-- fbm output is bounded by 1.75 in absolute value, for any octave count. -/
theorem fbm_abs_le (x y : ℝ) (n : ℕ) : |fbm x y n| ≤ 1.75 := by
  obtain ⟨h1, h2⟩ := fbmGo_bound x y n 0 1 1 0 0 (by norm_num) (le_refl 0) (by simp)
  rw [fbm]
  rcases eq_or_lt_of_le h2 with h0 | h0
  · have hv : (fbmGo x y n 0 1 1 0 0).1 = 0 := by
      rw [← h0] at h1
      have := abs_nonneg (fbmGo x y n 0 1 1 0 0).1
      have : |(fbmGo x y n 0 1 1 0 0).1| = 0 := le_antisymm (by linarith) this
      exact abs_eq_zero.mp this
    rw [hv]
    norm_num
  · rw [abs_div, abs_of_pos h0, div_le_iff₀ h0]
    linarith [h1]

/-- Foam amount as computed from any steepness and height values lies in
[0,1] whenever foamIntensity does. -/
theorem foamAmountOf_mem (cfg : WaveConfig) (s h : ℝ)
    (hf0 : 0 ≤ cfg.foamIntensity) (hf1 : cfg.foamIntensity ≤ 1) :
    0 ≤ foamAmountOf cfg s h ∧ foamAmountOf cfg s h ≤ 1 := by
  rw [foamAmountOf]
  split
  · rename_i hs
    constructor
    · apply le_min (by norm_num)
      have ha : 0 ≤ min 1 ((s - cfg.foamThreshold * 2) * 2) * cfg.foamIntensity := by
        apply mul_nonneg _ hf0
        exact le_min (by norm_num) (by nlinarith)
      have hb : 0 ≤ max 0 (h / (cfg.waveHeight * 2)) * cfg.foamIntensity * 0.5 := by
        apply mul_nonneg (mul_nonneg (le_max_left 0 _) hf0) (by norm_num)
      linarith
    · exact min_le_left _ _
  · exact ⟨le_refl 0, by norm_num⟩

/-- With foamIntensity = 0 the foam amount vanishes regardless of the
steepness branch taken. -/
theorem foamAmountOf_intensity_zero (cfg : WaveConfig) (s h : ℝ)
    (hf : cfg.foamIntensity = 0) : foamAmountOf cfg s h = 0 := by
  rw [foamAmountOf]
  split
  · simp [hf]
  · rfl

/-- C3: for every configuration with foamIntensity in [0,1] and
waveHeight > 0, the foam produced from any steepness/height pair lies in
[0,1]; it is exactly 0 when the steepness does not exceed the threshold;
and the per-vertex foam amount inherits the bound at every vertex/time. -/
theorem foam_amount_bounded (cfg : WaveConfig)
    (hf0 : 0 ≤ cfg.foamIntensity) (hf1 : cfg.foamIntensity ≤ 1)
    (hw : 0 < cfg.waveHeight) :
    (∀ s h : ℝ, 0 ≤ foamAmountOf cfg s h ∧ foamAmountOf cfg s h ≤ 1) ∧
    (∀ s h : ℝ, s ≤ cfg.foamThreshold * 2 → foamAmountOf cfg s h = 0) ∧
    (∀ t x z : ℝ, 0 ≤ foamAmount cfg t x z ∧ foamAmount cfg t x z ≤ 1) := by
  refine ⟨fun s h => foamAmountOf_mem cfg s h hf0 hf1, fun s h hs => ?_,
    fun t x z => foamAmountOf_mem cfg _ _ hf0 hf1⟩
  rw [foamAmountOf, if_neg (not_lt.mpr hs)]

/-- Witness for C3 at the default configuration and concrete values. -/
theorem foam_amount_bounded_witness :
    (0 ≤ foamAmountOf defaultWaveConfig 3 1 ∧ foamAmountOf defaultWaveConfig 3 1 ≤ 1) ∧
    foamAmountOf defaultWaveConfig 1 5 = 0 :=
  ⟨(foam_amount_bounded defaultWaveConfig (by norm_num [defaultWaveConfig])
      (by norm_num [defaultWaveConfig]) (by norm_num [defaultWaveConfig])).1 3 1,
   (foam_amount_bounded defaultWaveConfig (by norm_num [defaultWaveConfig])
      (by norm_num [defaultWaveConfig]) (by norm_num [defaultWaveConfig])).2.1 1 5
      (by norm_num [defaultWaveConfig])⟩

/-- Foam blend of a channel value in [0,1] stays in [0,1]. -/
theorem blend_unit_mem (t f : ℝ) (ht0 : 0 ≤ t) (ht1 : t ≤ 1)
    (hf0 : 0 ≤ f) (hf1 : f ≤ 1) :
    0 ≤ t + (1 - t) * f ∧ t + (1 - t) * f ≤ 1 := by
  constructor <;> nlinarith

/-- Foam blend of a channel value in [0, 1.1] stays in [0, 1.1]. -/
theorem blend_wide_mem (t f : ℝ) (ht0 : 0 ≤ t) (ht1 : t ≤ 1.1)
    (hf0 : 0 ≤ f) (hf1 : f ≤ 1) :
    0 ≤ t + (1 - t) * f ∧ t + (1 - t) * f ≤ 1.1 := by
  constructor <;> nlinarith

/-- C1 (amended): with base channels, waterClarity and foamIntensity all in
[0,1], the red and blue values written into the color buffer lie in [0,1],
while the green value lies in [0, 1.1] — the murky tint raises green by up
to 10%, so green can exceed 1 (no clamp is applied). -/
theorem color_channels_bounded_amended (cfg : WaveConfig) (base : RGB) (t x z : ℝ)
    (hr0 : 0 ≤ base.r) (hr1 : base.r ≤ 1)
    (hg0 : 0 ≤ base.g) (hg1 : base.g ≤ 1)
    (hb0 : 0 ≤ base.b) (hb1 : base.b ≤ 1)
    (hc0 : 0 ≤ cfg.waterClarity) (hc1 : cfg.waterClarity ≤ 1)
    (hf0 : 0 ≤ cfg.foamIntensity) (hf1 : cfg.foamIntensity ≤ 1) :
    (0 ≤ (vertexColor cfg base t x z).r ∧ (vertexColor cfg base t x z).r ≤ 1) ∧
    (0 ≤ (vertexColor cfg base t x z).g ∧ (vertexColor cfg base t x z).g ≤ 1.1) ∧
    (0 ≤ (vertexColor cfg base t x z).b ∧ (vertexColor cfg base t x z).b ≤ 1) := by
  obtain ⟨hfoam0, hfoam1⟩ := foamAmountOf_mem cfg (steepness cfg t x z)
    (totalHeight cfg t x z) hf0 hf1
  have hm0 : 0 ≤ murkiness cfg := by rw [murkiness]; linarith
  have hm1 : murkiness cfg ≤ 1 := by rw [murkiness]; linarith
  have hR : 0 ≤ base.r * (1 - murkiness cfg * 0.3) ∧
      base.r * (1 - murkiness cfg * 0.3) ≤ 1 := by
    constructor <;> nlinarith
  have hG : 0 ≤ base.g * (1 + murkiness cfg * 0.1) ∧
      base.g * (1 + murkiness cfg * 0.1) ≤ 1.1 := by
    constructor <;> nlinarith
  have hB : 0 ≤ base.b * (1 - murkiness cfg * 0.2) ∧
      base.b * (1 - murkiness cfg * 0.2) ≤ 1 := by
    constructor <;> nlinarith
  refine ⟨?_, ?_, ?_⟩
  · exact blend_unit_mem _ _ hR.1 hR.2 hfoam0 hfoam1
  · exact blend_wide_mem _ _ hG.1 hG.2 hfoam0 hfoam1
  · exact blend_unit_mem _ _ hB.1 hB.2 hfoam0 hfoam1

/-- Concrete configuration for the C1 counterexample: murkiest water
(waterClarity = 0) and no foam (foamIntensity = 0). -/
def murkyConfig : WaveConfig :=
  { defaultWaveConfig with waterClarity := 0, foamIntensity := 0 }

/-- Pure green base color, in [0,1] on every channel. -/
def pureGreen : RGB := ⟨0, 1, 0⟩

/-- C1 counterexample: the counterexample configuration satisfies every
hypothesis of the claim, yet the green value written for the vertex at the
origin at time 0 is 1.1 > 1. -/
theorem color_green_channel_can_exceed_one :
    (0 ≤ pureGreen.r ∧ pureGreen.r ≤ 1) ∧
    (0 ≤ pureGreen.g ∧ pureGreen.g ≤ 1) ∧
    (0 ≤ pureGreen.b ∧ pureGreen.b ≤ 1) ∧
    (0 ≤ murkyConfig.waterClarity ∧ murkyConfig.waterClarity ≤ 1) ∧
    (0 ≤ murkyConfig.foamIntensity ∧ murkyConfig.foamIntensity ≤ 1) ∧
    1 < (vertexColor murkyConfig pureGreen 0 0 0).g := by
  have hfoam : foamAmount murkyConfig 0 0 0 = 0 :=
    foamAmountOf_intensity_zero murkyConfig _ _ rfl
  have hg : (vertexColor murkyConfig pureGreen 0 0 0).g =
      pureGreen.g * (1 + murkiness murkyConfig * 0.1) +
        (1 - pureGreen.g * (1 + murkiness murkyConfig * 0.1)) *
          foamAmount murkyConfig 0 0 0 := rfl
  rw [hg, hfoam]
  norm_num [pureGreen, murkiness, murkyConfig, defaultWaveConfig]

/-- Witness for the amended C1 theorem, at the counterexample configuration
and base color (which satisfy all its hypotheses). -/
theorem color_channels_bounded_amended_witness :
    (0 ≤ (vertexColor murkyConfig pureGreen 0 0 0).r ∧
      (vertexColor murkyConfig pureGreen 0 0 0).r ≤ 1) ∧
    (0 ≤ (vertexColor murkyConfig pureGreen 0 0 0).g ∧
      (vertexColor murkyConfig pureGreen 0 0 0).g ≤ 1.1) ∧
    (0 ≤ (vertexColor murkyConfig pureGreen 0 0 0).b ∧
      (vertexColor murkyConfig pureGreen 0 0 0).b ≤ 1) :=
  color_channels_bounded_amended murkyConfig pureGreen 0 0 0
    (by norm_num [pureGreen]) (by norm_num [pureGreen])
    (by norm_num [pureGreen]) (by norm_num [pureGreen])
    (by norm_num [pureGreen]) (by norm_num [pureGreen])
    (by norm_num [murkyConfig, defaultWaveConfig])
    (by norm_num [murkyConfig, defaultWaveConfig])
    (by norm_num [murkyConfig, defaultWaveConfig])
    (by norm_num [murkyConfig, defaultWaveConfig])

open Filter in
/-- C5: with canyonAmplification ≥ 1 and canyonFocusWidth > 0, the canyon
factor equals the amplification exactly at x = 0, lies in
[1, canyonAmplification] everywhere, decreases as the distance from the
center grows, and tends to 1 in the limit of large |x|. -/
theorem canyon_factor_profile (cfg : WaveConfig)
    (hA : 1 ≤ cfg.canyonAmplification) (hw : 0 < cfg.canyonFocusWidth) :
    canyonFactor cfg 0 = cfg.canyonAmplification ∧
    (∀ x : ℝ, 1 ≤ canyonFactor cfg x ∧ canyonFactor cfg x ≤ cfg.canyonAmplification) ∧
    (∀ x₁ x₂ : ℝ, |x₁| ≤ |x₂| → canyonFactor cfg x₂ ≤ canyonFactor cfg x₁) ∧
    Tendsto (fun x => canyonFactor cfg x) atTop (nhds 1) := by
  have hww : 0 < cfg.canyonFocusWidth * cfg.canyonFocusWidth := mul_pos hw hw
  refine ⟨?_, ?_, ?_, ?_⟩
  · rw [canyonFactor]
    norm_num
  · intro x
    rw [canyonFactor]
    have hnum : 0 ≤ |x| / 150 * (|x| / 150) :=
      mul_nonneg (by positivity) (by positivity)
    have hq : -(|x| / 150 * (|x| / 150)) /
        (cfg.canyonFocusWidth * cfg.canyonFocusWidth) ≤ 0 :=
      div_nonpos_of_nonpos_of_nonneg (by linarith) (le_of_lt hww)
    have hE1 : Real.exp (-(|x| / 150 * (|x| / 150)) /
        (cfg.canyonFocusWidth * cfg.canyonFocusWidth)) ≤ 1 := by
      calc Real.exp (-(|x| / 150 * (|x| / 150)) /
            (cfg.canyonFocusWidth * cfg.canyonFocusWidth)) ≤ Real.exp 0 :=
              Real.exp_le_exp.mpr hq
        _ = 1 := Real.exp_zero
    have hE0 := Real.exp_pos (-(|x| / 150 * (|x| / 150)) /
      (cfg.canyonFocusWidth * cfg.canyonFocusWidth))
    constructor <;> nlinarith
  · intro x₁ x₂ h12
    rw [canyonFactor, canyonFactor]
    have hd : |x₁| / 150 ≤ |x₂| / 150 := by linarith
    have hdd : |x₁| / 150 * (|x₁| / 150) ≤ |x₂| / 150 * (|x₂| / 150) := by
      nlinarith [abs_nonneg x₁, abs_nonneg x₂]
    have hexp : -(|x₂| / 150 * (|x₂| / 150)) /
        (cfg.canyonFocusWidth * cfg.canyonFocusWidth) ≤
        -(|x₁| / 150 * (|x₁| / 150)) /
        (cfg.canyonFocusWidth * cfg.canyonFocusWidth) := by
      rw [neg_div, neg_div, neg_le_neg_iff]
      exact div_le_div_of_nonneg_right hdd hww.le
    have hE := Real.exp_le_exp.mpr hexp
    nlinarith [hE]
  · have h1 : Tendsto (fun x : ℝ => |x| / 150) atTop atTop :=
      tendsto_abs_atTop_atTop.atTop_div_const (by norm_num)
    have h2 : Tendsto (fun x : ℝ => |x| / 150 * (|x| / 150)) atTop atTop :=
      h1.atTop_mul_atTop h1
    have h3 : Tendsto (fun x : ℝ => |x| / 150 * (|x| / 150) /
        (cfg.canyonFocusWidth * cfg.canyonFocusWidth)) atTop atTop :=
      h2.atTop_div_const hww
    have h4 : Tendsto (fun x : ℝ => -(|x| / 150 * (|x| / 150) /
        (cfg.canyonFocusWidth * cfg.canyonFocusWidth))) atTop atBot :=
      tendsto_neg_atTop_atBot.comp h3
    have h5 : Tendsto (fun x : ℝ => Real.exp (-(|x| / 150 * (|x| / 150) /
        (cfg.canyonFocusWidth * cfg.canyonFocusWidth)))) atTop (nhds 0) := by
      have h := Real.tendsto_exp_atBot.comp h4
      simpa [Function.comp_def] using h
    have h6 : Tendsto (fun x : ℝ => 1 + (cfg.canyonAmplification - 1) *
        Real.exp (-(|x| / 150 * (|x| / 150) /
          (cfg.canyonFocusWidth * cfg.canyonFocusWidth))))
        atTop (nhds (1 + (cfg.canyonAmplification - 1) * 0)) :=
      (h5.const_mul (cfg.canyonAmplification - 1)).const_add 1
    have h7 : Tendsto (fun x : ℝ => canyonFactor cfg x)
        atTop (nhds (1 + (cfg.canyonAmplification - 1) * 0)) := by
      simpa [canyonFactor, neg_div] using h6
    simpa using h7

/-- Witness for C5: at the default configuration, the canyon factor at the
center equals the amplification value. -/
theorem canyon_factor_profile_witness :
    canyonFactor defaultWaveConfig 0 = defaultWaveConfig.canyonAmplification :=
  (canyon_factor_profile defaultWaveConfig
    (by norm_num [defaultWaveConfig]) (by norm_num [defaultWaveConfig])).1

/-- Core grounding bound: with a positive flatten factor of at most 1/2,
any vertex with negative pre-displacement height strictly loses height
magnitude under the rock displacement. -/
theorem rock_flatten_shrinks (seed fb sx sz : ℝ) (v : Vec3)
    (hfb0 : 0 < fb) (hfb1 : fb ≤ 1 / 2) (hy : v.y < 0) :
    |(rockDisplace seed fb sx sz v).y| < |v.y| := by
  have hy2 : (rockDisplace seed fb sx sz v).y =
      v.y * fb * (1 + fbm (v.x * 0.08 + seed) (v.y * 0.1 + v.z * 0.08 + seed) 3 * 0.3)
        * 0.85 := by
    rw [rockDisplace]
    simp only [if_pos hy]
  have hF := fbm_abs_le (v.x * 0.08 + seed) (v.y * 0.1 + v.z * 0.08 + seed) 3
  obtain ⟨hFlo, hFhi⟩ := abs_le.mp hF
  set D := 1 + fbm (v.x * 0.08 + seed) (v.y * 0.1 + v.z * 0.08 + seed) 3 * 0.3 with hD
  have hD0 : 0 < D := by rw [hD]; nlinarith
  have hD1 : D ≤ 1.525 := by rw [hD]; nlinarith
  have hk0 : 0 < fb * D * 0.85 := by positivity
  have hk1 : fb * D * 0.85 < 1 := by nlinarith
  have hrw : v.y * fb * D * 0.85 = v.y * (fb * D * 0.85) := by ring
  rw [hy2, hrw, abs_mul, abs_of_pos hk0]
  have habs : 0 < |v.y| := abs_pos.mpr (ne_of_lt hy)
  nlinarith

/-- C8: for every createRockGeometry call in the source and every vertex
whose pre-displacement height is negative, the post-displacement height has
strictly smaller magnitude. -/
theorem rock_grounding (c : RockCall) (hc : c ∈ rockCalls) (v : Vec3)
    (hy : v.y < 0) :
    |(rockDisplace c.seed c.flattenBottom c.stretchX c.stretchZ v).y| < |v.y| := by
  have hfb : 0 < c.flattenBottom ∧ c.flattenBottom ≤ 1 / 2 := by
    simp only [rockCalls, List.mem_cons, List.not_mem_nil, or_false] at hc
    rcases hc with rfl | rfl | rfl | rfl | rfl | rfl | rfl | rfl | rfl | rfl | rfl |
      rfl | rfl | rfl <;> norm_num
  exact rock_flatten_shrinks c.seed c.flattenBottom c.stretchX c.stretchZ v
    hfb.1 hfb.2 hy

/-- Witness for C8 at the fort main rock call and a concrete vertex. -/
theorem rock_grounding_witness :
    |(rockDisplace (400 : ℝ) 0.3 1.4 1.2 (Vec3.mk 0 (-1) 0)).y| <
      |(Vec3.mk (0 : ℝ) (-1) 0).y| :=
  rock_grounding ⟨400, 0.3, 1.4, 1.2⟩ (by norm_num [rockCalls])
    (Vec3.mk 0 (-1) 0) (by norm_num)

/-- The position half of an evaluation pass only reads the x and z entries
of the working buffer. -/
theorem posPass_congr (cfg : WaveConfig) (t : ℝ) :
    ∀ (orig p₁ p₂ : List Vec3),
      p₁.map (fun v => (v.x, v.z)) = p₂.map (fun v => (v.x, v.z)) →
      List.zipWith (fun o p => Vec3.mk p.x (totalHeight cfg t o.x o.z) p.z) orig p₁ =
      List.zipWith (fun o p => Vec3.mk p.x (totalHeight cfg t o.x o.z) p.z) orig p₂ := by
  intro orig
  induction orig with
  | nil => intro p₁ p₂ _; rfl
  | cons o os ih =>
      intro p₁ p₂ h
      cases p₁ with
      | nil =>
          cases p₂ with
          | nil => rfl
          | cons b bs => simp at h
      | cons a as =>
          cases p₂ with
          | nil => simp at h
          | cons b bs =>
              simp only [List.map_cons, List.cons.injEq, Prod.mk.injEq] at h
              obtain ⟨⟨hx, hz⟩, htl⟩ := h
              simp only [List.zipWith_cons_cons, List.cons.injEq]
              exact ⟨by rw [hx, hz], ih as bs htl⟩

/-- The color half of an evaluation pass never reads the working buffer;
only its length gates the loop. -/
theorem colorPass_congr (cfg : WaveConfig) (base : RGB) (t : ℝ) :
    ∀ (orig p₁ p₂ : List Vec3), p₁.length = p₂.length →
      List.zipWith (fun o _ => vertexColor cfg base t o.x o.z) orig p₁ =
      List.zipWith (fun o _ => vertexColor cfg base t o.x o.z) orig p₂ := by
  intro orig
  induction orig with
  | nil => intro p₁ p₂ _; rfl
  | cons o os ih =>
      intro p₁ p₂ h
      cases p₁ with
      | nil =>
          cases p₂ with
          | nil => rfl
          | cons b bs => simp at h
      | cons a as =>
          cases p₂ with
          | nil => simp at h
          | cons b bs =>
              simp only [List.length_cons, Nat.add_right_cancel_iff] at h
              simp only [List.zipWith_cons_cons, List.cons.injEq]
              exact ⟨trivial, ih as bs h⟩

/-- C4: the evaluation pass is a pure function of the configuration
snapshot, the accumulated time and the base-grid positions — two passes
over working buffers whose (x,z) entries agree (the program never rewrites
them, so they always hold the base-grid values) produce bit-identical
position and color buffers, whatever heights the buffers held before; and
every pass leaves the (x,z) entries of the position buffer unchanged. -/
theorem evaluate_deterministic :
    (∀ (cfg : WaveConfig) (base : RGB) (t : ℝ) (orig p₁ p₂ : List Vec3),
      p₁.map (fun v => (v.x, v.z)) = p₂.map (fun v => (v.x, v.z)) →
      wavePass cfg base t orig p₁ = wavePass cfg base t orig p₂) ∧
    (∀ (cfg : WaveConfig) (base : RGB) (t : ℝ) (orig p : List Vec3),
      orig.length = p.length →
      (wavePass cfg base t orig p).1.map (fun v => (v.x, v.z)) =
        p.map (fun v => (v.x, v.z))) := by
  constructor
  · intro cfg base t orig p₁ p₂ h
    have hlen : p₁.length = p₂.length := by
      have := congrArg List.length h
      simpa using this
    rw [wavePass, wavePass]
    exact Prod.ext (posPass_congr cfg t orig p₁ p₂ h)
      (colorPass_congr cfg base t orig p₁ p₂ hlen)
  · intro cfg base t orig
    induction orig with
    | nil =>
        intro p h
        have : p = [] := List.length_eq_zero.mp h.symm
        subst this
        rfl
    | cons o os ih =>
        intro p h
        cases p with
        | nil => simp at h
        | cons a as =>
            simp only [List.length_cons, Nat.add_right_cancel_iff] at h
            simp only [wavePass, List.zipWith_cons_cons, List.map_cons,
              List.cons.injEq]
            exact ⟨trivial, ih as h⟩

/-- Concrete base color for the C4 witness. -/
def navyBase : RGB := ⟨0.1, 0.2, 0.3⟩

/-- Witness for C4: two working buffers that differ only in their stale
heights produce bit-identical outputs. -/
theorem evaluate_deterministic_witness :
    wavePass defaultWaveConfig navyBase 0 [Vec3.mk 1 0 2] [Vec3.mk 1 7 2] =
    wavePass defaultWaveConfig navyBase 0 [Vec3.mk 1 0 2] [Vec3.mk 1 (-4) 2] :=
  evaluate_deterministic.1 defaultWaveConfig navyBase 0
    [Vec3.mk 1 0 2] [Vec3.mk 1 7 2] [Vec3.mk 1 (-4) 2] rfl

/-- C9: cliff generation writes only the z entry of each vertex, from that
vertex's (x,y) alone, so any two runs over base buffers agreeing on (x,y)
produce bit-identical position buffers; and rock generation over identical
base buffers produces bit-identical position buffers. -/
theorem terrain_generation_deterministic :
    (∀ (height seed disp : ℝ) (b₁ b₂ : List Vec3),
      b₁.map (fun v => (v.x, v.y)) = b₂.map (fun v => (v.x, v.y)) →
      createCliffPositions height seed disp b₁ =
        createCliffPositions height seed disp b₂) ∧
    (∀ (seed fb sx sz : ℝ) (b₁ b₂ : List Vec3), b₁ = b₂ →
      createRockPositions seed fb sx sz b₁ =
        createRockPositions seed fb sx sz b₂) := by
  constructor
  · intro height seed disp b₁
    induction b₁ with
    | nil =>
        intro b₂ h
        have : b₂ = [] := by
          cases b₂ with
          | nil => rfl
          | cons b bs => simp at h
        subst this
        rfl
    | cons a as ih =>
        intro b₂ h
        cases b₂ with
        | nil => simp at h
        | cons b bs =>
            simp only [List.map_cons, List.cons.injEq, Prod.mk.injEq] at h
            obtain ⟨⟨hx, hy⟩, htl⟩ := h
            simp only [createCliffPositions, List.map_cons, List.cons.injEq]
            refine ⟨by rw [hx, hy], ?_⟩
            have := ih bs htl
            simpa [createCliffPositions] using this
  · intro seed fb sx sz b₁ b₂ h
    rw [h]

/-- Witness for C9: two one-vertex cliff base buffers that differ only in
their pre-existing z entry produce identical displaced buffers. -/
theorem terrain_generation_deterministic_witness :
    createCliffPositions 55 0 18 [Vec3.mk 1 2 3] =
      createCliffPositions 55 0 18 [Vec3.mk 1 2 9] :=
  terrain_generation_deterministic.1 55 0 18 [Vec3.mk 1 2 3] [Vec3.mk 1 2 9] rfl

end Nazare

end
